import Mathlib

/-
  Verification of the webhook reconciliation core of the gatsby-source-kontent
  plugin (src/packages/gatsby-source-kontent/src/webhookProcessor.ts).

  The file shallowly embeds webhookProcessor.ts.  The collaborators that the
  processor imports from sibling modules (client, sourceNodes.items, naming) are
  not part of the analysed sources; they are modelled from the specification and
  carry a doc comment saying so.  JavaScript semantics is embedded explicitly:
  possibly-missing values are Option, the null-vs-undefined distinction that the
  validator relies on is a three-valued JsValue, thrown TypeErrors are Except
  errors, and the Gatsby node store is an explicit list of nodes threaded
  through every handler.
-/

set_option linter.unusedVariables false

/-- Model of a JavaScript value that may be undefined, null, or present.
The envelope validator distinguishes null from undefined (it checks
operation !== null), so Option alone is not a faithful model there. -/
inductive JsValue (α : Type) where
  | undefined : JsValue α
  | null : JsValue α
  | value : α → JsValue α
deriving DecidableEq, Repr

/-- JavaScript truthiness of a possibly-missing string: undefined, null and
the empty string are falsy. -/
def jsTruthy : Option String → Bool
  | none => false
  | some s => s != ""

/-- JavaScript String.prototype.startsWith, written over character lists so
that it evaluates inside the kernel. -/
def jsStartsWith (s pat : String) : Bool :=
  s.data.take pat.data.length == pat.data

/-- One entry of data.items in the webhook body (untrusted, fields may be
missing). -/
structure WebhookItem where
  id : Option String
  language : Option String
deriving DecidableEq, Repr

/-- The message part of the webhook body (untrusted).  operation keeps the
null/undefined distinction because parseKontentWebhookBody tests it with a
strict inequality against null. -/
structure WebhookMessage where
  api_name : Option String
  project_id : Option String
  operation : JsValue String
  type : Option String
deriving DecidableEq, Repr

/-- The data part of the webhook body (untrusted). -/
structure WebhookData where
  items : Option (List WebhookItem)
deriving DecidableEq, Repr

/-- An incoming webhook body of unknown shape (IWebhookDeliveryResponse as it
is actually used: both top-level members may be missing). -/
structure RawBody where
  data : Option WebhookData
  message : Option WebhookMessage
deriving DecidableEq, Repr

/-- system metadata of a Kontent item snapshot (ContentItemSnapshot.system). -/
structure KontentSystem where
  id : String
  codename : String
  language : String
  type : String
deriving DecidableEq, Repr

/-- One element descriptor of a snapshot: its type and, for rich-text
elements, the codenames referenced from modular_content. -/
structure KontentElement where
  type : String
  modular_content : List String
deriving DecidableEq, Repr

/-- A content item snapshot as returned by the delivery client
(ContentItemSnapshot): system metadata plus the element values
(Object.values of the elements object). -/
structure KontentItem where
  system : KontentSystem
  elements : List KontentElement
deriving DecidableEq, Repr

/-- Deterministic node identity.  Modelled from the spec: naming's
getKontentItemNodeStringForId composed with Gatsby's createNodeId derives node
identity deterministically from (itemId, requestedLanguage); the composite is
modelled as the pair itself, which keeps the derivation deterministic and
injective.  The item id slot is Option because the source forwards
data.items[0].id without any coercion. -/
abbrev NodeId := Option String × String

/-- A node of the Gatsby store.  Item nodes carry system metadata, the
preferred-language marker added by addPreferredLanguageProperty and their
element list; taxonomy/type nodes carry neither (system and
preferred_language stay none, elements stays empty). -/
structure Node where
  id : NodeId
  internalType : String
  system : Option KontentSystem
  preferred_language : Option String
  elements : List KontentElement
deriving DecidableEq, Repr

/-- The Gatsby node store, modelled as the list of currently stored nodes. -/
abbrev Store := List Node

/-- Result of client.loadKontentItem: the possibly-absent snapshot plus the
modular content map (a JavaScript object, modelled as the association list of
its own enumerable keys in iteration order). -/
structure KontentItemResult where
  item : Option KontentItem
  modularKontent : List (String × KontentItem)
deriving DecidableEq, Repr

/-- Modelled from the spec: the remote content fetcher collaborator
(client.loadKontentItem) resolves an item id and a language into a snapshot
(or absent) plus its modular content map.  The config argument and the
includeModular flag of the source call site are fixed for a run and do not
influence the shape, so they are dropped from the model. -/
abbrev Fetcher := Option String → String → KontentItemResult

/-- Plugin configuration (CustomPluginOptions fields read by the processor). -/
structure CustomPluginOptions where
  projectId : String
  languageCodenames : List String
  includeRawContent : Bool
  includeTaxonomies : Bool
  includeTypes : Bool
deriving DecidableEq, Repr

/-- Modelled from the spec: naming's RICH_TEXT_ELEMENT_TYPE_NAME constant,
the element type tag that marks rich-text elements. -/
def RICH_TEXT_ELEMENT_TYPE_NAME : String := "rich_text"

/-- Modelled from the spec: naming's getKontentItemInterfaceName, the common
prefix of every content-item node type name. -/
def getKontentItemInterfaceName : String := "kontentItem"

/-- Modelled from the spec: naming's getKontentTaxonomyTypeName, the node
type of taxonomy nodes. -/
def getKontentTaxonomyTypeName : String := "kontentTaxonomy"

/-- Modelled from the spec: naming's getKontentTypeTypeName, the node type of
type-definition nodes. -/
def getKontentTypeTypeName : String := "kontentType"

/-- Modelled from the spec: deterministic node id for an item id and a
requested language (getKontentItemNodeStringForId + api.createNodeId). -/
def getKontentItemNodeStringForId (itemId : Option String) (language : String) :
    NodeId :=
  (itemId, language)

/-- api.actions.createNode: stores a node under its id, replacing any node
previously stored under the same id (recreate-by-id semantics, spec section 3). -/
def createNode (store : Store) (n : Node) : Store :=
  store.filter (fun m => m.id != n.id) ++ [n]

/-- api.actions.deleteNode: removes the node with the given id. -/
def deleteNode (store : Store) (i : NodeId) : Store :=
  store.filter (fun m => m.id != i)

/-- api.getNode: looks a node up by id. -/
def getNode (store : Store) (i : NodeId) : Option Node :=
  store.find? (fun m => m.id == i)

/-- api.getNodesByType: all nodes whose internal type equals the given name. -/
def getNodesByType (store : Store) (t : String) : List Node :=
  store.filter (fun m => m.internalType == t)

/-- Folding api.actions.createNode over a list of nodes, in order. -/
def createAll (store : Store) (ns : List Node) : Store :=
  ns.foldl createNode store

/-- createNodeFromRawKontentItem: turns a raw snapshot into the stored node
and hands it to createNode (the caller threads the store here).  The helpers
it calls (addPreferredLanguageProperty, alterRichTextElements,
getKontentItemLanguageVariantArtifact) are modelled from the spec: the
artifact keeps the snapshot's system and elements, records the requested
language in the preferred_language marker, derives its node id
deterministically from (system.id, preferredLanguage) and its internal type
from the item interface prefix plus the item type.  alterRichTextElements is
a field-level rewrite declared out of scope by the spec, modelled as the
identity on the element list; includeRawContent only adds a raw-content
payload field, with no effect on any field this core reads. -/
def createNodeFromRawKontentItem (rawKontentItem : KontentItem)
    (includeRawContent : Bool) (preferredLanguage : String) : Node :=
  { id := getKontentItemNodeStringForId (some rawKontentItem.system.id) preferredLanguage
    internalType := getKontentItemInterfaceName ++ rawKontentItem.system.type
    system := some rawKontentItem.system
    preferred_language := some preferredLanguage
    elements := rawKontentItem.elements }

/-- isContentComponent: components carry the substring "01" at positions
14..16 of their UUID.  The source reads data?.system?.id and compares
id.substring(14, 16) with "01"; at its only call site the find predicate has
already required system to be present, so the none branch below is never
taken there (in raw JavaScript a missing system would throw on substring
after undefined !== null passes). -/
def isContentComponent (data : Node) : Bool :=
  match data.system with
  | some s => ((s.id.drop 14).take 2) == "01"
  | none => false

/-- The isCorrectStructure condition of parseKontentWebhookBody: every entry
of data.items has truthy language and id, message's api_name and project_id
are truthy, and message.operation is not null (a strict !== null comparison:
an undefined operation passes). -/
def webhookBodyStructureOk (body : RawBody) : Bool :=
  (match body.data with
   | none => false
   | some d =>
     match d.items with
     | none => false
     | some items => items.all (fun item => jsTruthy item.language && jsTruthy item.id))
    && jsTruthy (body.message.bind (fun m => m.api_name))
    && jsTruthy (body.message.bind (fun m => m.project_id))
    && (match body.message with
        | none => true
        | some m => m.operation != JsValue.null)

/-- parseKontentWebhookBody: the structural envelope check; returns the body
itself exactly when the structural condition holds. -/
def parseKontentWebhookBody (body : RawBody) : Option RawBody :=
  if webhookBodyStructureOk body then some body else none

/-- Array.prototype.includes applied to a possibly-null/undefined operation
verb: only a present value can be contained. -/
def jsIncludes (l : List String) (v : JsValue String) : Bool :=
  match v with
  | JsValue.value s => l.contains s
  | _ => false

/-- Strict equality of an operation verb with a string literal. -/
def jsStrictEq (v : JsValue String) (s : String) : Bool :=
  v == JsValue.value s

/-- isKontentSupportedWebhook: authorization of a validated envelope (project
match, recognized api/operation pair, content-item-variant message type). -/
def isKontentSupportedWebhook (message : WebhookMessage) (projectId : String) : Bool :=
  let isCorrectProject := message.project_id == some projectId
  let isPreviewWebhook := message.api_name == some "delivery_preview"
    && jsIncludes ["upsert", "archive", "restore"] message.operation
  let isBuildWebhook := message.api_name == some "delivery_production"
    && jsIncludes ["publish", "unpublish"] message.operation
  let isCorrectMessageType := message.type == some "content_item_variant"
  isCorrectProject && (isPreviewWebhook || isBuildWebhook) && isCorrectMessageType

/-- The shared materialization step of both handlers: create the node of the
primary snapshot, then one node per entry of the modular content map, all
tagged with the requested language; the accumulator carries the store and the
ids pushed so far. -/
def materializeLanguageVariant (kontentItem : KontentItem)
    (modularKontent : List (String × KontentItem)) (includeRawContent : Bool)
    (lang : String) (acc : Store × List NodeId) : Store × List NodeId :=
  let nodeData := createNodeFromRawKontentItem kontentItem includeRawContent lang
  let acc1 := (createNode acc.1 nodeData, acc.2 ++ [nodeData.id])
  modularKontent.foldl
    (fun a kv =>
      let nd := createNodeFromRawKontentItem kv.2 includeRawContent lang
      (createNode a.1 nd, a.2 ++ [nd.id]))
    acc1

/-- One iteration of handleUpsertItem's language loop: fetch the snapshot for
this language; if it is absent, continue, otherwise materialize it and its
modular content map. -/
def upsertLangStep (iid : Option String) (includeRawContent : Bool)
    (loadKontentItem : Fetcher) (acc : Store × List NodeId) (lang : String) :
    Store × List NodeId :=
  match loadKontentItem iid lang with
  | { item := none, modularKontent := _ } => acc
  | { item := some kontentItem, modularKontent := modularKontent } =>
    materializeLanguageVariant kontentItem modularKontent includeRawContent lang acc

/-- The language guard shared by both handlers:
pluginConfig.languageCodenames.includes(itemInfo.language), where a missing
language is never contained. -/
def eventLanguageConfigured (itemInfo : WebhookItem)
    (pluginConfig : CustomPluginOptions) : Bool :=
  match itemInfo.language with
  | some l => pluginConfig.languageCodenames.contains l
  | none => false

/-- handleUpsertItem: reads data.items[0] (.error models the TypeError thrown
when the chain is broken or the items array is empty), drops the event when
its language is not configured, and otherwise fans out over every configured
language.  Returns the pushed node ids and the resulting store. -/
def handleUpsertItem (body : RawBody) (pluginConfig : CustomPluginOptions)
    (loadKontentItem : Fetcher) (store : Store) :
    Except String (List NodeId × Store) :=
  match body.data with
  | none => Except.error "TypeError: Cannot read properties of undefined (reading items)"
  | some d =>
    match d.items with
    | none => Except.error "TypeError: Cannot read properties of undefined (reading 0)"
    | some items =>
      match items.head? with
      | none => Except.error "TypeError: Cannot read properties of undefined (reading language)"
      | some itemInfo =>
        let langOk : Bool := eventLanguageConfigured itemInfo pluginConfig
        if !langOk then
          Except.ok ([], store)
        else
          let r := pluginConfig.languageCodenames.foldl
            (upsertLangStep itemInfo.id pluginConfig.includeRawContent loadKontentItem)
            (store, [])
          Except.ok (r.2, r.1)

/-- The find predicate of the component cascade: the candidate has system
metadata, its codename equals the referenced codename and its
preferred-language marker equals the removed node's marker. -/
def cascadeMatch (cn : String) (pl : Option String) (c : Node) : Bool :=
  (match c.system with
   | some s => s.codename == cn
   | none => false)
    && c.preferred_language == pl

/-- Whether a stored node is a content-item node (its internal type starts
with the item interface prefix). -/
def kontentItemTypeNode (n : Node) : Bool :=
  jsStartsWith n.internalType getKontentItemInterfaceName

/-- The codenames referenced from modular_content across the rich-text-typed
elements of a node (lodash flatMap over the filtered element values). -/
def richTextModularCodenames (n : Node) : List String :=
  (n.elements.filter (fun e => e.type == RICH_TEXT_ELEMENT_TYPE_NAME)).flatMap
    (fun e => e.modular_content)

/-- One codename step of the component cascade: find the first content-item
node matching codename and preferred language in the snapshot taken at loop
entry; if it exists and is a component, push its id and delete it from the
live store. -/
def cascadeStep (kontentItemNodes : List Node) (pl : Option String)
    (a : Store × List NodeId) (cn : String) : Store × List NodeId :=
  match kontentItemNodes.find? (cascadeMatch cn pl) with
  | some candidate =>
    if isContentComponent candidate then
      (deleteNode a.1 candidate.id, a.2 ++ [candidate.id])
    else a
  | none => a

/-- One iteration of handleDeleteItem's language loop.  When the fetch still
resolves a (fallback) snapshot, the variant is re-materialized exactly as in
the upsert path.  When it does not, the source looks the local node up by its
deterministic id and immediately reads node.elements before the if (node)
guard, so a missing node is a thrown TypeError (.error); otherwise the
component cascade runs over the referenced codenames and finally the node
itself is deleted. -/
def deleteLangStep (iid : Option String) (includeRawContent : Bool)
    (loadKontentItem : Fetcher) (acc : Store × List NodeId) (lang : String) :
    Except String (Store × List NodeId) :=
  match loadKontentItem iid lang with
  | { item := some kontentItem, modularKontent := modularKontent } =>
    Except.ok (materializeLanguageVariant kontentItem modularKontent includeRawContent lang acc)
  | { item := none, modularKontent := _ } =>
    let idString := getKontentItemNodeStringForId iid lang
    match getNode acc.1 idString with
    | none => Except.error "TypeError: Cannot read properties of undefined (reading elements)"
    | some node =>
      let kontentItemNodes := acc.1.filter kontentItemTypeNode
      let modularItemCodenames := richTextModularCodenames node
      let a1 := modularItemCodenames.foldl
        (cascadeStep kontentItemNodes node.preferred_language) (acc.1, acc.2)
      Except.ok (deleteNode a1.1 node.id, a1.2 ++ [node.id])

/-- The language loop of handleDeleteItem, threading the store and the pushed
ids and propagating a thrown TypeError. -/
def deleteFanout (iid : Option String) (includeRawContent : Bool)
    (loadKontentItem : Fetcher) (langs : List String) (acc : Store × List NodeId) :
    Except String (Store × List NodeId) :=
  match langs with
  | [] => Except.ok acc
  | lang :: rest => do
    let a ← deleteLangStep iid includeRawContent loadKontentItem acc lang
    deleteFanout iid includeRawContent loadKontentItem rest a

/-- handleDeleteItem: same envelope access and language guard as
handleUpsertItem, then the delete-or-fallback-upsert fanout. -/
def handleDeleteItem (body : RawBody) (pluginConfig : CustomPluginOptions)
    (loadKontentItem : Fetcher) (store : Store) :
    Except String (List NodeId × Store) :=
  match body.data with
  | none => Except.error "TypeError: Cannot read properties of undefined (reading items)"
  | some d =>
    match d.items with
    | none => Except.error "TypeError: Cannot read properties of undefined (reading 0)"
    | some items =>
      match items.head? with
      | none => Except.error "TypeError: Cannot read properties of undefined (reading language)"
      | some itemInfo =>
        let langOk : Bool := eventLanguageConfigured itemInfo pluginConfig
        if !langOk then
          Except.ok ([], store)
        else do
          let a ← deleteFanout itemInfo.id pluginConfig.includeRawContent
            loadKontentItem pluginConfig.languageCodenames (store, [])
          Except.ok (a.2, a.1)

/-- The touch stage at the end of handleIncomingWebhook: for every registered
item type, touch exactly the nodes of that type whose id is in the processed
set; touch all taxonomy nodes when taxonomy inclusion is configured and all
type-definition nodes when type inclusion is configured. -/
def touchPropagation (store : Store) (itemTypes : List String)
    (processedItemIds : List NodeId) (pluginConfig : CustomPluginOptions) :
    List NodeId :=
  itemTypes.flatMap
    (fun t =>
      ((getNodesByType store t).filter (fun n => processedItemIds.contains n.id)).map
        (fun n => n.id))
    ++ (if pluginConfig.includeTaxonomies then
          (getNodesByType store getKontentTaxonomyTypeName).map (fun n => n.id)
        else [])
    ++ (if pluginConfig.includeTypes then
          (getNodesByType store getKontentTypeTypeName).map (fun n => n.id)
        else [])

/-- handleIncomingWebhook: validate the envelope, drop unsupported events,
dispatch to the upsert/delete handler by (api_name, operation), then run
touch propagation.  The source appends the handler results to
processedItemIds with Array.prototype.concat and discards the returned array,
so the processed set used by the touch stage is the still-empty list; the
discarded concatenation is kept here verbatim. -/
def handleIncomingWebhook (body : RawBody) (pluginConfig : CustomPluginOptions)
    (itemTypes : List String) (loadKontentItem : Fetcher) (store : Store) :
    Except String (Store × List NodeId) :=
  match parseKontentWebhookBody body with
  | none => Except.ok (store, [])
  | some webhook =>
    match webhook.message with
    | none => Except.error "TypeError: Cannot read properties of undefined (reading api_name)"
    | some message =>
      if !(isKontentSupportedWebhook message pluginConfig.projectId) then
        Except.ok (store, [])
      else
        let processedItemIds : List NodeId := []
        if message.api_name == some "delivery_preview" then do
          let store1 ←
            if jsStrictEq message.operation "upsert" || jsStrictEq message.operation "restore" then do
              let r ← handleUpsertItem webhook pluginConfig loadKontentItem store
              let _ := processedItemIds ++ r.1
              pure r.2
            else pure store
          let store2 ←
            if jsStrictEq message.operation "archive" then do
              let r ← handleDeleteItem webhook pluginConfig loadKontentItem store1
              let _ := processedItemIds ++ r.1
              pure r.2
            else pure store1
          Except.ok (store2, touchPropagation store2 itemTypes processedItemIds pluginConfig)
        else if message.api_name == some "delivery_production" then do
          let store1 ←
            if jsStrictEq message.operation "publish" then do
              let r ← handleUpsertItem webhook pluginConfig loadKontentItem store
              let _ := processedItemIds ++ r.1
              pure r.2
            else pure store
          let store2 ←
            if jsStrictEq message.operation "unpublish" then do
              let r ← handleDeleteItem webhook pluginConfig loadKontentItem store1
              let _ := processedItemIds ++ r.1
              pure r.2
            else pure store1
          Except.ok (store2, touchPropagation store2 itemTypes processedItemIds pluginConfig)
        else
          Except.ok (store, [])

/-
  Helper lemmas about the store operations.
-/

/-- Lawful boolean equality is symmetric. -/
theorem beq_symm_eq {α : Type} [BEq α] [LawfulBEq α] [DecidableEq α] (a b : α) :
    (a == b) = (b == a) := by
  by_cases h : a = b
  · subst h; simp
  · have h1 : (a == b) = false := beq_eq_false_iff_ne.mpr h
    have h2 : (b == a) = false := beq_eq_false_iff_ne.mpr (Ne.symm h)
    rw [h1, h2]

/-- jsTruthy holds exactly of present, non-empty strings. -/
theorem jsTruthy_iff (o : Option String) :
    jsTruthy o = true ↔ ∃ s, o = some s ∧ s ≠ "" := by
  cases o <;> simp [jsTruthy]

/-- The envelope validator only ever returns its input. -/
theorem parseKontentWebhookBody_eq_some (body b : RawBody)
    (h : parseKontentWebhookBody body = some b) : b = body := by
  unfold parseKontentWebhookBody at h
  split at h
  · exact (Option.some.inj h).symm
  · exact absurd h (by simp)

theorem createAll_nil (s : Store) : createAll s [] = s := rfl

theorem createAll_cons (s : Store) (n : Node) (ns : List Node) :
    createAll s (n :: ns) = createAll (createNode s n) ns := rfl

theorem createAll_append (s : Store) (xs ys : List Node) :
    createAll s (xs ++ ys) = createAll (createAll s xs) ys :=
  List.foldl_append _ _ _ _

/-- Membership in a freshly created node batch entry. -/
theorem mem_createNode {m n : Node} {s : Store} (h : m ∈ createNode s n) :
    m ∈ s ∨ m = n := by
  unfold createNode at h
  rcases List.mem_append.mp h with h2 | h2
  · exact Or.inl (List.mem_of_mem_filter h2)
  · exact Or.inr (List.mem_singleton.mp h2)

/-- A node survives one creation if its id differs from the created one. -/
theorem mem_createNode_of_ne {m n : Node} {s : Store} (hm : m ∈ s)
    (hne : n.id ≠ m.id) : m ∈ createNode s n := by
  unfold createNode
  apply List.mem_append.mpr
  left
  apply List.mem_filter.mpr
  refine ⟨hm, ?_⟩
  simp [bne, Ne.symm hne]

/-- Everything in the store after a batch of creations was either already
stored or is one of the created nodes. -/
theorem mem_of_mem_createAll {m : Node} :
    ∀ {ns : List Node} {s : Store}, m ∈ createAll s ns → m ∈ s ∨ m ∈ ns := by
  intro ns
  induction ns with
  | nil => intro s h; exact Or.inl h
  | cons n t ih =>
    intro s h
    rw [createAll_cons] at h
    rcases ih h with h1 | h1
    · rcases mem_createNode h1 with h2 | h2
      · exact Or.inl h2
      · exact Or.inr (h2 ▸ List.mem_cons_self _ _)
    · exact Or.inr (List.mem_cons_of_mem _ h1)

/-- A stored node whose id collides with no created node survives a batch of
creations. -/
theorem mem_createAll_of_forall_ne {m : Node} :
    ∀ {ns : List Node} {s : Store}, m ∈ s → (∀ k ∈ ns, k.id ≠ m.id) →
      m ∈ createAll s ns := by
  intro ns
  induction ns with
  | nil => intro s hm _; exact hm
  | cons n t ih =>
    intro s hm hne
    rw [createAll_cons]
    refine ih ?_ ?_
    · exact mem_createNode_of_ne hm (hne n (List.mem_cons_self _ _))
    · intro k hk
      exact hne k (List.mem_cons_of_mem _ hk)

/-- If some created node carries id i, then after the batch the store holds a
node with id i that is itself one of the created nodes. -/
theorem exists_mem_createAll_of_created {i : NodeId} :
    ∀ {ns : List Node} {s : Store}, (∃ k ∈ ns, k.id = i) →
      ∃ m, m ∈ createAll s ns ∧ m.id = i ∧ m ∈ ns := by
  intro ns
  induction ns with
  | nil => intro s h; rcases h with ⟨k, hk, _⟩; cases hk
  | cons n t ih =>
    intro s h
    rw [createAll_cons]
    by_cases hT : ∃ k ∈ t, k.id = i
    · rcases ih (s := createNode s n) hT with ⟨m, hm1, hm2, hm3⟩
      exact ⟨m, hm1, hm2, List.mem_cons_of_mem _ hm3⟩
    · rcases h with ⟨k, hk, hki⟩
      rcases List.mem_cons.mp hk with rfl | hkt
      · refine ⟨k, ?_, hki, List.mem_cons_self _ _⟩
        refine mem_createAll_of_forall_ne ?_ ?_
        · unfold createNode
          exact List.mem_append.mpr (Or.inr (List.mem_singleton.mpr rfl))
        · intro k' hk' hEq
          exact hT ⟨k', hk', hEq.trans hki⟩
      · exact absurd ⟨k, hkt, hki⟩ hT

/-- The store after a batch of creations: the previously stored nodes whose
ids are untouched by the batch, followed by the canonical result of playing
the batch into an empty store. -/
theorem createAll_eq_filter_append :
    ∀ (ns : List Node) (s : Store),
      createAll s ns =
        s.filter (fun m => !(ns.any (fun k => k.id == m.id))) ++ createAll [] ns := by
  intro ns
  induction ns with
  | nil =>
    intro s
    simp [createAll]
  | cons n t ih =>
    intro s
    rw [createAll_cons, ih (createNode s n)]
    have hnil : createAll ([] : Store) (n :: t) = createAll [n] t := rfl
    rw [hnil, ih ([n] : Store)]
    unfold createNode
    rw [List.filter_append, List.filter_filter]
    have hfilters :
        List.filter (fun a => (!t.any fun k => k.id == a.id) && a.id != n.id) s =
          List.filter (fun m => !(n :: t).any fun k => k.id == m.id) s := by
      apply List.filter_congr
      intro m _
      simp only [List.any_cons, Bool.not_or, bne]
      rw [beq_symm_eq m.id n.id, Bool.and_comm]
    rw [hfilters, List.append_assoc]

/-- Every node of the canonical batch store is one of the batch nodes. -/
theorem mem_createAll_nil {m : Node} {ns : List Node}
    (h : m ∈ createAll [] ns) : m ∈ ns := by
  rcases mem_of_mem_createAll h with h1 | h1
  · cases h1
  · exact h1

/-- Replaying the same batch of creations over its own result changes
nothing: recreate-by-id is idempotent on the store. -/
theorem createAll_idem (s : Store) (ns : List Node) :
    createAll (createAll s ns) ns = createAll s ns := by
  conv_lhs => rw [createAll_eq_filter_append ns s]
  rw [createAll_eq_filter_append ns _]
  conv_rhs => rw [createAll_eq_filter_append ns s]
  congr 1
  rw [List.filter_append]
  have h1 : (createAll ([] : Store) ns).filter
      (fun m => !(ns.any (fun k => k.id == m.id))) = [] := by
    rw [List.filter_eq_nil_iff]
    intro m hm
    have hmem := mem_createAll_nil hm
    have hany : ns.any (fun k => k.id == m.id) = true :=
      List.any_eq_true.mpr ⟨m, hmem, beq_iff_eq.mpr rfl⟩
    simp [hany]
  rw [h1, List.append_nil, List.filter_filter]
  apply List.filter_congr
  intro m _
  simp

/-- The nodes one materialization call creates, in creation order: the primary
snapshot's node, then one node per modular content entry. -/
def materializeNodes (kontentItem : KontentItem)
    (modularKontent : List (String × KontentItem)) (includeRawContent : Bool)
    (lang : String) : List Node :=
  createNodeFromRawKontentItem kontentItem includeRawContent lang ::
    modularKontent.map (fun kv => createNodeFromRawKontentItem kv.2 includeRawContent lang)

/-- A fold that creates (g x) and pushes its id for every list entry equals a
batch creation of the mapped nodes plus the mapped id list. -/
theorem createFold_eq {α : Type} (g : α → Node) :
    ∀ (l : List α) (s : Store) (a : List NodeId),
      l.foldl (fun p x => (createNode p.1 (g x), p.2 ++ [(g x).id])) (s, a) =
        (createAll s (l.map g), a ++ (l.map g).map (fun n => n.id)) := by
  intro l
  induction l with
  | nil => intro s a; simp [createAll]
  | cons x t ih =>
    intro s a
    rw [List.foldl_cons, ih (createNode s (g x)) (a ++ [(g x).id])]
    rw [List.map_cons, createAll_cons, List.map_cons, List.append_assoc]
    rfl

/-- materializeLanguageVariant is the batch creation of materializeNodes. -/
theorem materializeLanguageVariant_eq (kontentItem : KontentItem)
    (modularKontent : List (String × KontentItem)) (includeRawContent : Bool)
    (lang : String) (s : Store) (a : List NodeId) :
    materializeLanguageVariant kontentItem modularKontent includeRawContent lang (s, a) =
      (createAll s (materializeNodes kontentItem modularKontent includeRawContent lang),
       a ++ (materializeNodes kontentItem modularKontent includeRawContent lang).map
          (fun n => n.id)) := by
  unfold materializeLanguageVariant
  rw [createFold_eq (fun kv => createNodeFromRawKontentItem kv.2 includeRawContent lang)
    modularKontent
    (createNode s (createNodeFromRawKontentItem kontentItem includeRawContent lang))
    (a ++ [(createNodeFromRawKontentItem kontentItem includeRawContent lang).id])]
  unfold materializeNodes
  rw [createAll_cons, List.map_cons, List.append_assoc]
  rfl

/-- The nodes one upsert fanout iteration creates for a language: none when
the fetch comes back absent, otherwise the materialization batch. -/
def upsertNodesForLang (iid : Option String) (includeRawContent : Bool)
    (loadKontentItem : Fetcher) (lang : String) : List Node :=
  match loadKontentItem iid lang with
  | { item := none, modularKontent := _ } => []
  | { item := some kontentItem, modularKontent := modularKontent } =>
    materializeNodes kontentItem modularKontent includeRawContent lang

/-- All nodes an upsert fanout creates over a language list, in order. -/
def upsertNodes (iid : Option String) (includeRawContent : Bool)
    (loadKontentItem : Fetcher) (langs : List String) : List Node :=
  langs.flatMap (upsertNodesForLang iid includeRawContent loadKontentItem)

/-- The upsert fanout loop is the batch creation of upsertNodes, pushing
exactly their ids. -/
theorem upsertFoldl_eq (iid : Option String) (includeRawContent : Bool)
    (loadKontentItem : Fetcher) :
    ∀ (langs : List String) (s : Store) (a : List NodeId),
      langs.foldl (upsertLangStep iid includeRawContent loadKontentItem) (s, a) =
        (createAll s (upsertNodes iid includeRawContent loadKontentItem langs),
         a ++ (upsertNodes iid includeRawContent loadKontentItem langs).map
            (fun n => n.id)) := by
  intro langs
  induction langs with
  | nil => intro s a; simp [upsertNodes, createAll]
  | cons lang rest ih =>
    intro s a
    rw [List.foldl_cons]
    have hbatch : upsertNodes iid includeRawContent loadKontentItem (lang :: rest) =
        upsertNodesForLang iid includeRawContent loadKontentItem lang ++
          upsertNodes iid includeRawContent loadKontentItem rest := by
      unfold upsertNodes
      rw [List.flatMap_cons]
    rw [hbatch]
    rcases hres : loadKontentItem iid lang with ⟨it, mods⟩
    cases it with
    | none =>
      have hstep : upsertLangStep iid includeRawContent loadKontentItem (s, a) lang = (s, a) := by
        unfold upsertLangStep
        rw [hres]
      have hlang : upsertNodesForLang iid includeRawContent loadKontentItem lang = [] := by
        unfold upsertNodesForLang
        rw [hres]
      rw [hstep, hlang, List.nil_append, ih]
    | some kontentItem =>
      have hstep : upsertLangStep iid includeRawContent loadKontentItem (s, a) lang =
          materializeLanguageVariant kontentItem mods includeRawContent lang (s, a) := by
        unfold upsertLangStep
        rw [hres]
      have hlang : upsertNodesForLang iid includeRawContent loadKontentItem lang =
          materializeNodes kontentItem mods includeRawContent lang := by
        unfold upsertNodesForLang
        rw [hres]
      rw [hstep, hlang, materializeLanguageVariant_eq, ih, createAll_append,
        List.map_append, List.append_assoc]

/-- handleUpsertItem has one of three shapes, uniformly in the store it is
given: a thrown TypeError, the language-mismatch skip, or the batch creation
of the nodes determined by the body, the configuration and the fetcher. -/
theorem handleUpsertItem_shape (body : RawBody) (cfg : CustomPluginOptions)
    (loadKontentItem : Fetcher) :
    (∃ e, ∀ st, handleUpsertItem body cfg loadKontentItem st = Except.error e) ∨
    (∀ st, handleUpsertItem body cfg loadKontentItem st = Except.ok ([], st)) ∨
    (∃ ns : List Node, ∀ st, handleUpsertItem body cfg loadKontentItem st =
        Except.ok (ns.map (fun n => n.id), createAll st ns)) := by
  cases hd : body.data with
  | none =>
    exact Or.inl ⟨"TypeError: Cannot read properties of undefined (reading items)",
      fun st => by simp [handleUpsertItem, hd]⟩
  | some d =>
    cases hi : d.items with
    | none =>
      exact Or.inl ⟨"TypeError: Cannot read properties of undefined (reading 0)",
        fun st => by simp [handleUpsertItem, hd, hi]⟩
    | some items =>
      cases items with
      | nil =>
        exact Or.inl ⟨"TypeError: Cannot read properties of undefined (reading language)",
          fun st => by simp [handleUpsertItem, hd, hi]⟩
      | cons itemInfo rest =>
        cases hl : eventLanguageConfigured itemInfo cfg with
        | false =>
          refine Or.inr (Or.inl ?_)
          intro st
          simp [handleUpsertItem, hd, hi, hl]
        | true =>
          refine Or.inr (Or.inr ?_)
          refine ⟨upsertNodes itemInfo.id cfg.includeRawContent loadKontentItem
            cfg.languageCodenames, ?_⟩
          intro st
          simp only [handleUpsertItem, hd, hi, List.head?_cons, hl, Bool.not_true,
            Bool.false_eq_true, if_false]
          rw [upsertFoldl_eq]
          simp

/-- C9: running the same Upsert-classified event twice in sequence against
the same remote state yields the same final set of local nodes as running it
once — recreating nodes under their deterministic (itemId, language) ids is
idempotent on the store contents, and the returned id list is unchanged. -/
theorem C9_upsert_idempotent (body : RawBody) (cfg : CustomPluginOptions)
    (loadKontentItem : Fetcher) (store store' : Store) (ids : List NodeId)
    (h : handleUpsertItem body cfg loadKontentItem store = Except.ok (ids, store')) :
    handleUpsertItem body cfg loadKontentItem store' = Except.ok (ids, store') := by
  rcases handleUpsertItem_shape body cfg loadKontentItem with ⟨e, he⟩ | hskip | ⟨ns, hok⟩
  · rw [he store] at h
    cases h
  · rw [hskip store] at h
    simp only [Except.ok.injEq, Prod.mk.injEq] at h
    obtain ⟨hid, hst⟩ := h
    subst hid
    subst hst
    exact hskip _
  · rw [hok store] at h
    simp only [Except.ok.injEq, Prod.mk.injEq] at h
    obtain ⟨hid, hst⟩ := h
    subst hst
    rw [hok (createAll store ns), createAll_idem, hid]

/-- Concrete run for the C9 witness: one configured language, a fetcher with
one snapshot and one modular entry. -/
def c9cfg : CustomPluginOptions := ⟨"p1", ["en"], false, false, false⟩

def c9fetch : Fetcher := fun iid lang =>
  if iid == some "i1" && lang == "en" then
    { item := some ⟨⟨"i1", "one", "en", "Article"⟩, []⟩
      modularKontent := [("w", ⟨⟨"m1", "w", "en", "Widget"⟩, []⟩)] }
  else { item := none, modularKontent := [] }

def c9body : RawBody :=
  ⟨some ⟨some [⟨some "i1", some "en"⟩]⟩,
   some ⟨some "delivery_preview", some "p1", JsValue.value "upsert",
     some "content_item_variant"⟩⟩

def c9store : Store :=
  [⟨(some "i1", "en"), "kontentItemArticle", some ⟨"i1", "one", "en", "Article"⟩,
    some "en", []⟩,
   ⟨(some "m1", "en"), "kontentItemWidget", some ⟨"m1", "w", "en", "Widget"⟩,
    some "en", []⟩]

/-- Witness for C9: a concrete upsert run from the empty store, replayed over
its own result. -/
theorem C9_witness :
    handleUpsertItem c9body c9cfg c9fetch [] =
        Except.ok ([(some "i1", "en"), (some "m1", "en")], c9store) ∧
      handleUpsertItem c9body c9cfg c9fetch c9store =
        Except.ok ([(some "i1", "en"), (some "m1", "en")], c9store) :=
  ⟨by rfl, C9_upsert_idempotent c9body c9cfg c9fetch [] c9store
    [(some "i1", "en"), (some "m1", "en")] (by rfl)⟩

/-- The candidates the component cascade deletes, in codename order: for each
referenced codename, the first snapshot node matching codename and
preferred-language marker, kept only when it satisfies the component
predicate. -/
def cascadeCandidates (kontentItemNodes : List Node) (pl : Option String)
    (cns : List String) : List Node :=
  cns.filterMap (fun cn =>
    match kontentItemNodes.find? (cascadeMatch cn pl) with
    | some candidate => if isContentComponent candidate then some candidate else none
    | none => none)

/-- The cascade fold deletes exactly the cascade candidates (by id) and
pushes exactly their ids, in order. -/
theorem cascade_foldl_eq (kontentItemNodes : List Node) (pl : Option String) :
    ∀ (cns : List String) (s : Store) (a : List NodeId),
      cns.foldl (cascadeStep kontentItemNodes pl) (s, a) =
        (s.filter (fun m =>
           !((cascadeCandidates kontentItemNodes pl cns).any (fun d => d.id == m.id))),
         a ++ (cascadeCandidates kontentItemNodes pl cns).map (fun d => d.id)) := by
  intro cns
  induction cns with
  | nil =>
    intro s a
    simp [cascadeCandidates]
  | cons cn rest ih =>
    intro s a
    rw [List.foldl_cons]
    have hcands : cascadeCandidates kontentItemNodes pl (cn :: rest) =
        (match kontentItemNodes.find? (cascadeMatch cn pl) with
         | some candidate => if isContentComponent candidate then [candidate] else []
         | none => []) ++ cascadeCandidates kontentItemNodes pl rest := by
      unfold cascadeCandidates
      rw [List.filterMap_cons]
      cases hf : kontentItemNodes.find? (cascadeMatch cn pl) with
      | none => simp
      | some candidate =>
        cases hc : isContentComponent candidate with
        | false => simp [hc]
        | true => simp [hc]
    cases hf : kontentItemNodes.find? (cascadeMatch cn pl) with
    | none =>
      have hstep : cascadeStep kontentItemNodes pl (s, a) cn = (s, a) := by
        unfold cascadeStep
        rw [hf]
      rw [hstep, ih, hcands, hf]
      simp
    | some candidate =>
      cases hc : isContentComponent candidate with
      | false =>
        have hstep : cascadeStep kontentItemNodes pl (s, a) cn = (s, a) := by
          unfold cascadeStep
          rw [hf]
          simp [hc]
        rw [hstep, ih, hcands, hf]
        simp [hc]
      | true =>
        have hstep : cascadeStep kontentItemNodes pl (s, a) cn =
            (deleteNode s candidate.id, a ++ [candidate.id]) := by
          unfold cascadeStep
          rw [hf]
          simp [hc]
        rw [hstep, ih, hcands, hf]
        simp only [hc, if_true, List.singleton_append, List.map_cons, List.any_cons,
          Prod.mk.injEq]
        constructor
        · unfold deleteNode
          rw [List.filter_filter]
          apply List.filter_congr
          intro m _
          simp only [Bool.not_or, bne]
          rw [beq_symm_eq candidate.id m.id, Bool.and_comm]
        · rw [List.append_assoc]
          rfl

/-- A successful getNode returns a node carrying the requested id. -/
theorem getNode_id {s : Store} {i : NodeId} {nd : Node}
    (h : getNode s i = some nd) : nd.id = i := by
  unfold getNode at h
  have h2 : (nd.id == i) = true := @List.find?_some Node (fun m => m.id == i) nd s h
  exact beq_iff_eq.mp h2

/-- A successful getNode returns a stored node. -/
theorem getNode_mem {s : Store} {i : NodeId} {nd : Node}
    (h : getNode s i = some nd) : nd ∈ s := by
  unfold getNode at h
  exact List.mem_of_find?_eq_some h

/-- Two stored nodes with the same id are the same node when stored ids are
pairwise distinct. -/
theorem eq_of_mem_nodup_id {s : Store}
    (hnodup : (s.map (fun n => n.id)).Nodup) {x y : Node}
    (hx : x ∈ s) (hy : y ∈ s) (hxy : x.id = y.id) : x = y :=
  List.inj_on_of_nodup_map hnodup hx hy hxy

/-- When at most one list entry satisfies p, find? returns any member that
satisfies p. -/
theorem find?_eq_of_countP_le_one {α : Type} {p : α → Bool} :
    ∀ {l : List α}, l.countP p ≤ 1 → ∀ {c}, c ∈ l → p c = true →
      l.find? p = some c := by
  intro l
  induction l with
  | nil => intro _ c hc; cases hc
  | cons h t ih =>
    intro hcount c hc hp
    cases hph : p h with
    | true =>
      rw [List.find?_cons_of_pos _ hph]
      rcases List.mem_cons.mp hc with rfl | hct
      · rfl
      · exfalso
        have h1 : 0 < t.countP p := List.countP_pos_iff.mpr ⟨c, hct, hp⟩
        have h2 : (h :: t).countP p = t.countP p + 1 := by
          rw [List.countP_cons, hph]
          simp
        omega
    | false =>
      rw [List.find?_cons_of_neg _ (by simp [hph])]
      have hct : c ∈ t := by
        rcases List.mem_cons.mp hc with rfl | hct
        · rw [hp] at hph; cases hph
        · exact hct
      have hcount' : t.countP p ≤ 1 := by
        rw [List.countP_cons, hph] at hcount
        simpa using hcount
      exact ih hcount' hct hp

/-- Every cascade candidate is the find? result of one of the referenced
codenames and satisfies the component predicate. -/
theorem mem_cascadeCandidates {snap : List Node} {pl : Option String}
    {cns : List String} {dd : Node}
    (h : dd ∈ cascadeCandidates snap pl cns) :
    ∃ cn ∈ cns, snap.find? (cascadeMatch cn pl) = some dd ∧
      isContentComponent dd = true := by
  unfold cascadeCandidates at h
  rcases List.mem_filterMap.mp h with ⟨cn, hcn, hf⟩
  refine ⟨cn, hcn, ?_⟩
  cases hfind : snap.find? (cascadeMatch cn pl) with
  | none => rw [hfind] at hf; cases hf
  | some cand =>
    rw [hfind] at hf
    cases hcomp : isContentComponent cand with
    | false => simp [hcomp] at hf
    | true =>
      simp [hcomp] at hf
      subst hf
      exact ⟨rfl, hcomp⟩

/-- Conversely, a component node found for a referenced codename is a cascade
candidate. -/
theorem cascadeCandidates_of_find {snap : List Node} {pl : Option String}
    {cns : List String} {c : Node} {cn : String}
    (hcn : cn ∈ cns) (hf : snap.find? (cascadeMatch cn pl) = some c)
    (hcomp : isContentComponent c = true) :
    c ∈ cascadeCandidates snap pl cns := by
  unfold cascadeCandidates
  apply List.mem_filterMap.mpr
  exact ⟨cn, hcn, by rw [hf]; simp [hcomp]⟩

/-- C4: for a Delete-classified event for item I at configured language L
where the fetcher returns absent for L and the local node (I, L) exists, the
node is deleted, and a stored item node whose codename matches a
modular_content reference of the removed node's rich-text elements and whose
preferred-language marker equals the removed node's marker is deleted exactly
when its UUID substring at positions 14..16 equals the component marker "01";
every candidate failing the codename match, the marker match or the component
predicate is retained.  The store is assumed to satisfy its id-uniqueness
invariant (at most one node per deterministic id, hence at most one candidate
per codename and marker). -/
theorem C4_cascade_characterization
    (body : RawBody) (cfg : CustomPluginOptions) (loadKontentItem : Fetcher)
    (store : Store) (I L : String) (mods : List (String × KontentItem)) (nd : Node)
    (hdata : body.data = some ⟨some [⟨some I, some L⟩]⟩)
    (hlangs : cfg.languageCodenames = [L])
    (hfetch : loadKontentItem (some I) L = ⟨none, mods⟩)
    (hnode : getNode store (some I, L) = some nd)
    (hnodup : (store.map (fun n => n.id)).Nodup)
    (huniq : ∀ cn ∈ richTextModularCodenames nd,
      (store.filter kontentItemTypeNode).countP
        (cascadeMatch cn nd.preferred_language) ≤ 1) :
    ∃ ids store',
      handleDeleteItem body cfg loadKontentItem store = Except.ok (ids, store') ∧
      (∀ m ∈ store', m.id ≠ (some I, L)) ∧
      (∀ c ∈ store, c.id ≠ nd.id →
        (c ∉ store' ↔ (kontentItemTypeNode c = true ∧ isContentComponent c = true ∧
          ∃ cn ∈ richTextModularCodenames nd,
            cascadeMatch cn nd.preferred_language c = true))) := by
  have hlc : eventLanguageConfigured ⟨some I, some L⟩ cfg = true := by
    unfold eventLanguageConfigured
    rw [hlangs]
    simp
  have hstep : deleteLangStep (some I) cfg.includeRawContent loadKontentItem (store, []) L =
      Except.ok
        (deleteNode
          (store.filter (fun m =>
            !((cascadeCandidates (store.filter kontentItemTypeNode) nd.preferred_language
                (richTextModularCodenames nd)).any (fun dd => dd.id == m.id))))
          nd.id,
         ((cascadeCandidates (store.filter kontentItemTypeNode) nd.preferred_language
            (richTextModularCodenames nd)).map (fun dd => dd.id)) ++ [nd.id]) := by
    unfold deleteLangStep
    rw [hfetch]
    simp only [getKontentItemNodeStringForId]
    rw [hnode]
    dsimp only
    rw [cascade_foldl_eq]
    simp
  have hrun : handleDeleteItem body cfg loadKontentItem store =
      Except.ok
        (((cascadeCandidates (store.filter kontentItemTypeNode) nd.preferred_language
            (richTextModularCodenames nd)).map (fun dd => dd.id)) ++ [nd.id],
         deleteNode
           (store.filter (fun m =>
             !((cascadeCandidates (store.filter kontentItemTypeNode) nd.preferred_language
                 (richTextModularCodenames nd)).any (fun dd => dd.id == m.id))))
           nd.id) := by
    simp only [handleDeleteItem, hdata, List.head?_cons, hlc, Bool.not_true,
      Bool.false_eq_true, if_false, hlangs]
    unfold deleteFanout
    rw [hstep]
    unfold deleteFanout
    rfl
  refine ⟨_, _, hrun, ?_, ?_⟩
  · intro m hm
    unfold deleteNode at hm
    have hb := (List.mem_filter.mp hm).2
    have hne : m.id ≠ nd.id := by simpa [bne] using hb
    rw [getNode_id hnode] at hne
    exact hne
  · intro c hcstore hcne
    have hb : (c.id != nd.id) = true := by simp [bne, hcne]
    have hmem_iff : c ∈ deleteNode
        (store.filter (fun m =>
          !((cascadeCandidates (store.filter kontentItemTypeNode) nd.preferred_language
              (richTextModularCodenames nd)).any (fun dd => dd.id == m.id))))
        nd.id ↔
        ((cascadeCandidates (store.filter kontentItemTypeNode) nd.preferred_language
            (richTextModularCodenames nd)).any (fun dd => dd.id == c.id)) = false := by
      unfold deleteNode
      rw [List.mem_filter, List.mem_filter]
      constructor
      · rintro ⟨⟨_, hpc⟩, _⟩
        simpa using hpc
      · intro hpc
        exact ⟨⟨hcstore, by simp [hpc]⟩, hb⟩
    have hnot_iff : c ∉ deleteNode
        (store.filter (fun m =>
          !((cascadeCandidates (store.filter kontentItemTypeNode) nd.preferred_language
              (richTextModularCodenames nd)).any (fun dd => dd.id == m.id))))
        nd.id ↔
        ∃ dd ∈ cascadeCandidates (store.filter kontentItemTypeNode) nd.preferred_language
          (richTextModularCodenames nd), dd.id = c.id := by
      rw [hmem_iff]
      constructor
      · intro hfalse
        have hany : ((cascadeCandidates (store.filter kontentItemTypeNode)
            nd.preferred_language (richTextModularCodenames nd)).any
            (fun dd => dd.id == c.id)) = true := by
          cases hv : ((cascadeCandidates (store.filter kontentItemTypeNode)
              nd.preferred_language (richTextModularCodenames nd)).any
              (fun dd => dd.id == c.id)) with
          | false => exact absurd hv hfalse
          | true => rfl
        rcases List.any_eq_true.mp hany with ⟨dd, hdd, hddid⟩
        exact ⟨dd, hdd, beq_iff_eq.mp hddid⟩
      · rintro ⟨dd, hdd, hddid⟩ hfeq
        have : ((cascadeCandidates (store.filter kontentItemTypeNode)
            nd.preferred_language (richTextModularCodenames nd)).any
            (fun dd => dd.id == c.id)) = true :=
          List.any_eq_true.mpr ⟨dd, hdd, beq_iff_eq.mpr hddid⟩
        rw [this] at hfeq
        cases hfeq
    rw [hnot_iff]
    constructor
    · rintro ⟨dd, hdd, hddid⟩
      rcases mem_cascadeCandidates hdd with ⟨cn, hcn, hfind, hcompd⟩
      have hddsnap : dd ∈ store.filter kontentItemTypeNode :=
        List.mem_of_find?_eq_some hfind
      have hddstore : dd ∈ store := (List.mem_filter.mp hddsnap).1
      have hdd_it : kontentItemTypeNode dd = true := (List.mem_filter.mp hddsnap).2
      have hmatch : (cascadeMatch cn nd.preferred_language) dd = true :=
        List.find?_some hfind
      have heq : dd = c := eq_of_mem_nodup_id hnodup hddstore hcstore hddid
      subst heq
      exact ⟨hdd_it, hcompd, cn, hcn, hmatch⟩
    · rintro ⟨hit, hcomp, cn, hcn, hmatch⟩
      have hsnap : c ∈ store.filter kontentItemTypeNode :=
        List.mem_filter.mpr ⟨hcstore, hit⟩
      have hfind := find?_eq_of_countP_le_one (huniq cn hcn) hsnap hmatch
      have hcand : c ∈ cascadeCandidates (store.filter kontentItemTypeNode)
          nd.preferred_language (richTextModularCodenames nd) :=
        cascadeCandidates_of_find hcn hfind hcomp
      exact ⟨c, hcand, rfl⟩

/-- Concrete delete-cascade scenario for the C4 witness: a root node whose
rich-text element references one component (UUID marker "01") and one shared
linked item (marker "47"), all in the same preferred-language slot. -/
def c4I : String := "aaaaaaaa-bbbb-02cc-dddd-eeeeeeeeeeee"

def c4nd : Node :=
  ⟨(some c4I, "en"), "kontentItemArticle",
   some ⟨c4I, "root-cn", "en", "Article"⟩, some "en",
   [⟨"rich_text", ["comp-a", "shared-b"]⟩]⟩

def c4comp : Node :=
  ⟨(some "11111111-2222-0133-4444-555555555555", "en"), "kontentItemWidget",
   some ⟨"11111111-2222-0133-4444-555555555555", "comp-a", "en", "Widget"⟩,
   some "en", []⟩

def c4shared : Node :=
  ⟨(some "99999999-8888-4777-6666-555555555555", "en"), "kontentItemArticle",
   some ⟨"99999999-8888-4777-6666-555555555555", "shared-b", "en", "Article"⟩,
   some "en", []⟩

def c4store : Store := [c4nd, c4comp, c4shared]

def c4body : RawBody :=
  ⟨some ⟨some [⟨some c4I, some "en"⟩]⟩,
   some ⟨some "delivery_preview", some "p1", JsValue.value "archive",
     some "content_item_variant"⟩⟩

def c4cfg : CustomPluginOptions := ⟨"p1", ["en"], false, false, false⟩

def c4fetch : Fetcher := fun iid lang => ⟨none, []⟩

/-- Witness for C4 at the concrete scenario: all hypotheses hold and the
characterization follows by the theorem. -/
theorem C4_witness :
    (c4body.data = some ⟨some [⟨some c4I, some "en"⟩]⟩ ∧
     c4cfg.languageCodenames = ["en"] ∧
     c4fetch (some c4I) "en" = ⟨none, []⟩ ∧
     getNode c4store (some c4I, "en") = some c4nd ∧
     (c4store.map (fun n => n.id)).Nodup ∧
     (∀ cn ∈ richTextModularCodenames c4nd,
       (c4store.filter kontentItemTypeNode).countP
         (cascadeMatch cn c4nd.preferred_language) ≤ 1)) ∧
    (∃ ids store',
      handleDeleteItem c4body c4cfg c4fetch c4store = Except.ok (ids, store') ∧
      (∀ m ∈ store', m.id ≠ (some c4I, "en")) ∧
      (∀ c ∈ c4store, c.id ≠ c4nd.id →
        (c ∉ store' ↔ (kontentItemTypeNode c = true ∧ isContentComponent c = true ∧
          ∃ cn ∈ richTextModularCodenames c4nd,
            cascadeMatch cn c4nd.preferred_language c = true)))) :=
  ⟨⟨rfl, rfl, rfl, by decide, by decide, by decide⟩,
   C4_cascade_characterization c4body c4cfg c4fetch c4store c4I "en" [] c4nd
     rfl rfl rfl (by decide) (by decide) (by decide)⟩

/-- All nodes of a materialization batch carry the requested language as
their preferred-language marker. -/
theorem materializeNodes_preferred_language {kontentItem : KontentItem}
    {mods : List (String × KontentItem)} {inc : Bool} {lang : String} {x : Node}
    (hx : x ∈ materializeNodes kontentItem mods inc lang) :
    x.preferred_language = some lang := by
  unfold materializeNodes at hx
  rcases List.mem_cons.mp hx with rfl | hx
  · rfl
  · rcases List.mem_map.mp hx with ⟨kv, _, rfl⟩
    rfl

/-- C5: for a Delete-classified event at configured language L where the
fetcher still returns a (fallback) snapshot for L, the node (I, L) is
recreated/updated (present afterwards, tagged with preferred language L)
rather than deleted, every modular content entry is materialized likewise,
and no cascade deletion runs: any node that leaves the store was replaced by
a node under the same id, never removed. -/
theorem C5_fallback_recreates
    (body : RawBody) (cfg : CustomPluginOptions) (loadKontentItem : Fetcher)
    (store : Store) (I L : String) (item : KontentItem)
    (mods : List (String × KontentItem))
    (hdata : body.data = some ⟨some [⟨some I, some L⟩]⟩)
    (hlangs : cfg.languageCodenames = [L])
    (hfetch : loadKontentItem (some I) L = ⟨some item, mods⟩)
    (hsys : item.system.id = I) :
    ∃ ids store',
      handleDeleteItem body cfg loadKontentItem store = Except.ok (ids, store') ∧
      (∃ n ∈ store', n.id = (some I, L) ∧ n.preferred_language = some L) ∧
      (∀ kv ∈ mods, ∃ n ∈ store', n.id = (some kv.2.system.id, L) ∧
        n.preferred_language = some L) ∧
      (∀ n ∈ store, n ∉ store' → ∃ m ∈ store', m.id = n.id) := by
  have hlc : eventLanguageConfigured ⟨some I, some L⟩ cfg = true := by
    unfold eventLanguageConfigured
    rw [hlangs]
    simp
  have hstep : deleteLangStep (some I) cfg.includeRawContent loadKontentItem (store, []) L =
      Except.ok
        (createAll store (materializeNodes item mods cfg.includeRawContent L),
         [] ++ (materializeNodes item mods cfg.includeRawContent L).map (fun n => n.id)) := by
    unfold deleteLangStep
    rw [hfetch]
    dsimp only
    rw [materializeLanguageVariant_eq]
  have hrun : handleDeleteItem body cfg loadKontentItem store =
      Except.ok
        ((materializeNodes item mods cfg.includeRawContent L).map (fun n => n.id),
         createAll store (materializeNodes item mods cfg.includeRawContent L)) := by
    simp only [handleDeleteItem, hdata, List.head?_cons, hlc, Bool.not_true,
      Bool.false_eq_true, if_false, hlangs]
    unfold deleteFanout
    rw [hstep]
    unfold deleteFanout
    rfl
  refine ⟨_, _, hrun, ?_, ?_, ?_⟩
  · have hhd : createNodeFromRawKontentItem item cfg.includeRawContent L ∈
        materializeNodes item mods cfg.includeRawContent L := by
      unfold materializeNodes
      exact List.mem_cons_self _ _
    have hid : (createNodeFromRawKontentItem item cfg.includeRawContent L).id =
        (some I, L) := by
      unfold createNodeFromRawKontentItem getKontentItemNodeStringForId
      rw [hsys]
    rcases exists_mem_createAll_of_created (s := store) ⟨_, hhd, hid⟩ with
      ⟨m, hm1, hm2, hm3⟩
    exact ⟨m, hm1, hm2, materializeNodes_preferred_language hm3⟩
  · intro kv hkv
    have hmem : createNodeFromRawKontentItem kv.2 cfg.includeRawContent L ∈
        materializeNodes item mods cfg.includeRawContent L := by
      unfold materializeNodes
      exact List.mem_cons_of_mem _ (List.mem_map.mpr ⟨kv, hkv, rfl⟩)
    have hid : (createNodeFromRawKontentItem kv.2 cfg.includeRawContent L).id =
        (some kv.2.system.id, L) := rfl
    rcases exists_mem_createAll_of_created (s := store) ⟨_, hmem, hid⟩ with
      ⟨m, hm1, hm2, hm3⟩
    exact ⟨m, hm1, hm2, materializeNodes_preferred_language hm3⟩
  · intro n hn hnot
    by_cases hex : ∃ k ∈ materializeNodes item mods cfg.includeRawContent L, k.id = n.id
    · rcases exists_mem_createAll_of_created (s := store) hex with ⟨m, hm1, hm2, _⟩
      exact ⟨m, hm1, hm2⟩
    · exact absurd
        (mem_createAll_of_forall_ne hn (fun k hk heq => hex ⟨k, hk, heq⟩)) hnot

/-- Concrete fallback-delete scenario for the C5 witness. -/
def c5item : KontentItem := ⟨⟨"i5", "five", "en", "Article"⟩, []⟩

def c5mod : KontentItem := ⟨⟨"m5", "w5", "en", "Widget"⟩, []⟩

def c5fetch : Fetcher := fun iid lang =>
  if iid == some "i5" && lang == "en" then
    { item := some c5item, modularKontent := [("w5", c5mod)] }
  else { item := none, modularKontent := [] }

def c5body : RawBody :=
  ⟨some ⟨some [⟨some "i5", some "en"⟩]⟩,
   some ⟨some "delivery_production", some "p1", JsValue.value "unpublish",
     some "content_item_variant"⟩⟩

def c5cfg : CustomPluginOptions := ⟨"p1", ["en"], false, false, false⟩

/-- Witness for C5 at the concrete scenario. -/
theorem C5_witness :
    (c5body.data = some ⟨some [⟨some "i5", some "en"⟩]⟩ ∧
     c5cfg.languageCodenames = ["en"] ∧
     c5fetch (some "i5") "en" = ⟨some c5item, [("w5", c5mod)]⟩ ∧
     c5item.system.id = "i5") ∧
    (∃ ids store',
      handleDeleteItem c5body c5cfg c5fetch [] = Except.ok (ids, store') ∧
      (∃ n ∈ store', n.id = (some "i5", "en") ∧ n.preferred_language = some "en") ∧
      (∀ kv ∈ [("w5", c5mod)], ∃ n ∈ store', n.id = (some kv.2.system.id, "en") ∧
        n.preferred_language = some "en") ∧
      (∀ n ∈ ([] : Store), n ∉ store' → ∃ m ∈ store', m.id = n.id)) :=
  ⟨⟨rfl, rfl, by decide, rfl⟩,
   C5_fallback_recreates c5body c5cfg c5fetch [] "i5" "en" c5item [("w5", c5mod)]
     rfl rfl (by decide) rfl⟩

/-- Concrete scenario for C3: archive event, fetcher absent, empty store. -/
def c3body : RawBody :=
  ⟨some ⟨some [⟨some "i1", some "en"⟩]⟩,
   some ⟨some "delivery_preview", some "p1", JsValue.value "archive",
     some "content_item_variant"⟩⟩

def c3cfg : CustomPluginOptions := ⟨"p1", ["en"], false, false, false⟩

def c3fetch : Fetcher := fun iid lang => ⟨none, []⟩

/-- C3: with the fetcher returning absent for (i1, en) and no local node
stored under the deterministic id (i1, en), handleDeleteItem does NOT degrade
to a no-op: the source reads node.elements before its if (node) guard, so the
run throws a TypeError instead of completing.  This exhibits the code
behavior at the failing input of the claim. -/
theorem C3_missing_node_throws :
    getNode ([] : Store) (some "i1", "en") = none ∧
    (c3fetch (some "i1") "en").item = none ∧
    handleDeleteItem c3body c3cfg c3fetch [] =
      Except.error "TypeError: Cannot read properties of undefined (reading elements)" :=
  ⟨rfl, rfl, by rfl⟩

/-- Concrete scenario for C1: an upsert event over two configured languages,
both resolving remotely, with one modular entry each. -/
def c1itemEN : KontentItem := ⟨⟨"i1", "item-one", "en", "Article"⟩, []⟩

def c1modEN : KontentItem := ⟨⟨"m1", "mod-one", "en", "Widget"⟩, []⟩

def c1itemDE : KontentItem := ⟨⟨"i1", "item-one", "de", "Article"⟩, []⟩

def c1modDE : KontentItem := ⟨⟨"m1", "mod-one", "de", "Widget"⟩, []⟩

def c1fetch : Fetcher := fun iid lang =>
  if iid == some "i1" then
    if lang == "en" then { item := some c1itemEN, modularKontent := [("mod-one", c1modEN)] }
    else if lang == "de" then { item := some c1itemDE, modularKontent := [("mod-one", c1modDE)] }
    else { item := none, modularKontent := [] }
  else { item := none, modularKontent := [] }

def c1cfg : CustomPluginOptions := ⟨"proj1", ["en", "de"], false, false, false⟩

def c1body : RawBody :=
  ⟨some ⟨some [⟨some "i1", some "en"⟩]⟩,
   some ⟨some "delivery_preview", some "proj1", JsValue.value "upsert",
     some "content_item_variant"⟩⟩

def c1store : Store :=
  [⟨(some "i1", "en"), "kontentItemArticle", some ⟨"i1", "item-one", "en", "Article"⟩,
    some "en", []⟩,
   ⟨(some "m1", "en"), "kontentItemWidget", some ⟨"m1", "mod-one", "en", "Widget"⟩,
    some "en", []⟩,
   ⟨(some "i1", "de"), "kontentItemArticle", some ⟨"i1", "item-one", "de", "Article"⟩,
    some "de", []⟩,
   ⟨(some "m1", "de"), "kontentItemWidget", some ⟨"m1", "mod-one", "de", "Widget"⟩,
    some "de", []⟩]

/-- C1: the upsert handler does create exactly the two primary nodes under
the deterministic ids (i1, en) and (i1, de) plus one node per modular entry,
and returns their ids — but handleIncomingWebhook passes an EMPTY processed
set to the touch stage (Array.prototype.concat's result is discarded), so the
touched list is empty even though created nodes of registered item types sit
in the final store.  This exhibits the code behavior at the failing input of
the claim's processed-id part. -/
theorem C1_processed_ids_discarded :
    handleUpsertItem c1body c1cfg c1fetch [] =
      Except.ok ([(some "i1", "en"), (some "m1", "en"), (some "i1", "de"),
        (some "m1", "de")], c1store) ∧
    handleIncomingWebhook c1body c1cfg ["kontentItemArticle", "kontentItemWidget"]
        c1fetch [] =
      Except.ok (c1store, []) ∧
    (∃ n ∈ c1store, n.id = (some "i1", "en") ∧ n.internalType = "kontentItemArticle") :=
  ⟨by rfl, by rfl, by decide⟩

/-- Concrete scenario for C2: the event's own language (de) is not in the
configured list ([en]), while the configured language does resolve remotely. -/
def c2cfg : CustomPluginOptions := ⟨"p1", ["en"], false, false, false⟩

def c2body : RawBody :=
  ⟨some ⟨some [⟨some "i1", some "de"⟩]⟩,
   some ⟨some "delivery_preview", some "p1", JsValue.value "upsert",
     some "content_item_variant"⟩⟩

def c2fetch : Fetcher := fun iid lang =>
  if lang == "en" then
    { item := some ⟨⟨"i1", "one", "en", "Article"⟩, []⟩, modularKontent := [] }
  else { item := none, modularKontent := [] }

/-- C2 counterexample: the fetcher has a snapshot for the configured language
en, yet both handlers return immediately with no ids and an unchanged (still
empty) store — no fetch-driven reconciliation happens for any configured
language, contrary to the claim that the fanout still processes every
configured language. -/
theorem C2_counterexample :
    (c2fetch (some "i1") "en").item.isSome = true ∧
    handleUpsertItem c2body c2cfg c2fetch [] = Except.ok ([], []) ∧
    handleDeleteItem c2body c2cfg c2fetch [] = Except.ok ([], []) :=
  ⟨by decide, by rfl, by rfl⟩

/-- C2 as amended: when the event's reported language is not in the
configured list, the whole event is dropped with a diagnostic — the handlers
return an empty id list and leave any store untouched, performing no fetches
and no mutations for any configured language.  (The fanout only runs when the
event's language is configured.) -/
theorem C2_language_mismatch_skips_event
    (body : RawBody) (cfg : CustomPluginOptions) (loadKontentItem : Fetcher)
    (store : Store) (d : WebhookData) (itemInfo : WebhookItem)
    (rest : List WebhookItem)
    (hd : body.data = some d) (hi : d.items = some (itemInfo :: rest))
    (hl : eventLanguageConfigured itemInfo cfg = false) :
    handleUpsertItem body cfg loadKontentItem store = Except.ok ([], store) ∧
    handleDeleteItem body cfg loadKontentItem store = Except.ok ([], store) := by
  constructor
  · simp [handleUpsertItem, hd, hi, hl]
  · simp [handleDeleteItem, hd, hi, hl]

/-- Witness for the amended C2 at the concrete scenario. -/
theorem C2_witness :
    (c2body.data = some ⟨some [⟨some "i1", some "de"⟩]⟩ ∧
     eventLanguageConfigured ⟨some "i1", some "de"⟩ c2cfg = false) ∧
    (handleUpsertItem c2body c2cfg c2fetch [] = Except.ok ([], []) ∧
     handleDeleteItem c2body c2cfg c2fetch [] = Except.ok ([], [])) :=
  ⟨⟨rfl, by decide⟩,
   C2_language_mismatch_skips_event c2body c2cfg c2fetch []
     ⟨some [⟨some "i1", some "de"⟩]⟩ ⟨some "i1", some "de"⟩ [] rfl rfl (by decide)⟩

/-- contains agrees with membership under lawful boolean equality. -/
theorem contains_iff_mem {α : Type} [BEq α] [LawfulBEq α] (l : List α) (a : α) :
    l.contains a = true ↔ a ∈ l := by
  simp [List.contains_eq_any_beq]

/-- Concrete body for the C6 counterexample: a well-shaped envelope whose
message.operation is absent (undefined). -/
def c6body : RawBody :=
  ⟨some ⟨some [⟨some "i1", some "en"⟩]⟩,
   some ⟨some "delivery_preview", some "p1", JsValue.undefined,
     some "content_item_variant"⟩⟩

/-- C6 counterexample: the claim says an absent (undefined) operation makes
the validator return "not an envelope"; the source only rejects a null
operation (operation !== null), and undefined !== null holds, so the
validator accepts this body. -/
theorem C6_counterexample :
    c6body.message = some ⟨some "delivery_preview", some "p1", JsValue.undefined,
      some "content_item_variant"⟩ ∧
    parseKontentWebhookBody c6body = some c6body :=
  ⟨rfl, by rfl⟩

/-- C6 as amended: the validator returns the typed envelope exactly when
every entry of data.items has a present non-empty id and language, the
message has present non-empty api_name and project_id, and message.operation
is not null — an absent (undefined) operation is accepted, since the check is
a strict comparison against null only. -/
theorem C6_envelope_validator_characterization (body : RawBody) :
    parseKontentWebhookBody body = some body ↔
      ((∃ d, body.data = some d ∧ ∃ items, d.items = some items ∧
         ∀ it ∈ items, (∃ s, it.id = some s ∧ s ≠ "") ∧
           (∃ t, it.language = some t ∧ t ≠ "")) ∧
       (∃ m, body.message = some m ∧
         (∃ a, m.api_name = some a ∧ a ≠ "") ∧
         (∃ p, m.project_id = some p ∧ p ≠ "") ∧
         m.operation ≠ JsValue.null)) := by
  have hb : webhookBodyStructureOk body = true ↔
      ((∃ d, body.data = some d ∧ ∃ items, d.items = some items ∧
         ∀ it ∈ items, (∃ s, it.id = some s ∧ s ≠ "") ∧
           (∃ t, it.language = some t ∧ t ≠ "")) ∧
       (∃ m, body.message = some m ∧
         (∃ a, m.api_name = some a ∧ a ≠ "") ∧
         (∃ p, m.project_id = some p ∧ p ≠ "") ∧
         m.operation ≠ JsValue.null)) := by
    rcases body with ⟨bdata, bmsg⟩
    cases bdata with
    | none => simp [webhookBodyStructureOk]
    | some d =>
      rcases d with ⟨items?⟩
      cases items? with
      | none => simp [webhookBodyStructureOk]
      | some items =>
        cases bmsg with
        | none => simp [webhookBodyStructureOk, jsTruthy]
        | some m =>
          simp only [webhookBodyStructureOk, Option.some_bind, Bool.and_eq_true,
            List.all_eq_true, jsTruthy_iff, bne_iff_ne, Option.some.injEq]
          constructor
          · rintro ⟨⟨⟨hitems, hapi⟩, hproj⟩, hop⟩
            refine ⟨⟨⟨some items⟩, rfl, items, rfl, ?_⟩, m, rfl, hapi, hproj, hop⟩
            intro it hit
            rcases hitems it hit with ⟨hlang, hid⟩
            exact ⟨hid, hlang⟩
          · rintro ⟨⟨d', hd', items', hitems', hall⟩, m', hm', hapi, hproj, hop⟩
            subst hd'
            subst hm'
            have hii : items = items' := by
              simpa using hitems'
            subst hii
            refine ⟨⟨⟨?_, hapi⟩, hproj⟩, hop⟩
            intro it hit
            rcases hall it hit with ⟨hid, hlang⟩
            exact ⟨hlang, hid⟩
  unfold parseKontentWebhookBody
  constructor
  · intro h
    by_cases hs : webhookBodyStructureOk body
    · exact hb.mp hs
    · rw [if_neg hs] at h
      cases h
  · intro h
    rw [if_pos (hb.mpr h)]

/-- Concrete body for the C7 counterexample: operation absent yet the
structural check passes. -/
def c7body : RawBody :=
  ⟨some ⟨some [⟨some "i7", some "en"⟩]⟩,
   some ⟨some "delivery_production", some "p7", JsValue.undefined,
     some "content_item_variant"⟩⟩

/-- C7 counterexample: the claim counts "message.operation absent" among the
bodies failing the structural envelope check; this body has an absent
operation and the structural check accepts it (it is dropped later, as
unsupported, not by the validator). -/
theorem C7_counterexample :
    c7body.message = some ⟨some "delivery_production", some "p7", JsValue.undefined,
      some "content_item_variant"⟩ ∧
    parseKontentWebhookBody c7body = some c7body :=
  ⟨rfl, by rfl⟩

/-- C7 as amended: a body that fails the structural envelope check — and
likewise a body whose message.operation is absent, which passes the check but
is rejected as unsupported — leads to zero node-store mutations and zero
touches: handleIncomingWebhook returns the store unchanged and an empty
touched list. -/
theorem C7_malformed_no_mutations
    (body : RawBody) (cfg : CustomPluginOptions) (itemTypes : List String)
    (loadKontentItem : Fetcher) (store : Store)
    (h : parseKontentWebhookBody body = none ∨
      ∃ m, body.message = some m ∧ m.operation = JsValue.undefined) :
    handleIncomingWebhook body cfg itemTypes loadKontentItem store =
      Except.ok (store, []) := by
  rcases h with hp | ⟨m, hm, hop⟩
  · simp [handleIncomingWebhook, hp]
  · cases hparse : parseKontentWebhookBody body with
    | none => simp [handleIncomingWebhook, hparse]
    | some wb =>
      have hwb : wb = body := parseKontentWebhookBody_eq_some body wb hparse
      subst hwb
      have hsupp : isKontentSupportedWebhook m cfg.projectId = false := by
        unfold isKontentSupportedWebhook
        simp [jsIncludes, hop]
      simp [handleIncomingWebhook, hparse, hm, hsupp]

/-- Witness for the amended C7: the fully empty body fails the structural
check and the run leaves the (empty) store untouched. -/
theorem C7_witness :
    (parseKontentWebhookBody ⟨none, none⟩ = none ∨
      ∃ m, (RawBody.mk none none).message = some m ∧
        m.operation = JsValue.undefined) ∧
    handleIncomingWebhook ⟨none, none⟩ ⟨"p", [], false, false, false⟩ []
      (fun iid lang => ⟨none, []⟩) [] = Except.ok ([], []) :=
  ⟨Or.inl (by rfl),
   C7_malformed_no_mutations ⟨none, none⟩ ⟨"p", [], false, false, false⟩ []
     (fun iid lang => ⟨none, []⟩) [] (Or.inl (by rfl))⟩

/-- C8: a node id is touched by the touch stage exactly when a stored node of
a registered item type carries it and it lies in the run's processed-id set,
or taxonomy inclusion is configured and a taxonomy node carries it, or type
inclusion is configured and a type-definition node carries it. -/
theorem C8_touch_characterization (store : Store) (itemTypes : List String)
    (processedItemIds : List NodeId) (cfg : CustomPluginOptions) (i : NodeId) :
    i ∈ touchPropagation store itemTypes processedItemIds cfg ↔
      ((∃ n ∈ store, n.internalType ∈ itemTypes ∧ n.id = i ∧
          i ∈ processedItemIds) ∨
       (cfg.includeTaxonomies = true ∧
         ∃ n ∈ store, n.internalType = getKontentTaxonomyTypeName ∧ n.id = i) ∨
       (cfg.includeTypes = true ∧
         ∃ n ∈ store, n.internalType = getKontentTypeTypeName ∧ n.id = i)) := by
  have hitems : i ∈ itemTypes.flatMap
      (fun t => ((getNodesByType store t).filter
        (fun n => processedItemIds.contains n.id)).map (fun n => n.id)) ↔
      ∃ n ∈ store, n.internalType ∈ itemTypes ∧ n.id = i ∧ i ∈ processedItemIds := by
    simp only [List.mem_flatMap, List.mem_map, List.mem_filter, getNodesByType]
    constructor
    · rintro ⟨t, ht, n, ⟨⟨hns, hnt⟩, hcont⟩, rfl⟩
      have hteq : n.internalType = t := beq_iff_eq.mp hnt
      exact ⟨n, hns, hteq ▸ ht, rfl, (contains_iff_mem _ _).mp hcont⟩
    · rintro ⟨n, hns, hti, rfl, hip⟩
      exact ⟨n.internalType, hti, n, ⟨⟨hns, beq_iff_eq.mpr rfl⟩,
        (contains_iff_mem _ _).mpr hip⟩, rfl⟩
  have htax : i ∈ (if cfg.includeTaxonomies then
        (getNodesByType store getKontentTaxonomyTypeName).map (fun n => n.id)
      else []) ↔
      (cfg.includeTaxonomies = true ∧
        ∃ n ∈ store, n.internalType = getKontentTaxonomyTypeName ∧ n.id = i) := by
    cases h : cfg.includeTaxonomies with
    | false => simp
    | true =>
      simp only [if_true, List.mem_map, List.mem_filter, getNodesByType]
      constructor
      · rintro ⟨n, ⟨hns, hnt⟩, rfl⟩
        exact ⟨by trivial, n, hns, beq_iff_eq.mp hnt, rfl⟩
      · rintro ⟨_, n, hns, hnt, rfl⟩
        exact ⟨n, ⟨hns, beq_iff_eq.mpr hnt⟩, rfl⟩
  have htyp : i ∈ (if cfg.includeTypes then
        (getNodesByType store getKontentTypeTypeName).map (fun n => n.id)
      else []) ↔
      (cfg.includeTypes = true ∧
        ∃ n ∈ store, n.internalType = getKontentTypeTypeName ∧ n.id = i) := by
    cases h : cfg.includeTypes with
    | false => simp
    | true =>
      simp only [if_true, List.mem_map, List.mem_filter, getNodesByType]
      constructor
      · rintro ⟨n, ⟨hns, hnt⟩, rfl⟩
        exact ⟨by trivial, n, hns, beq_iff_eq.mp hnt, rfl⟩
      · rintro ⟨_, n, hns, hnt, rfl⟩
        exact ⟨n, ⟨hns, beq_iff_eq.mpr hnt⟩, rfl⟩
  unfold touchPropagation
  rw [List.mem_append, List.mem_append, hitems, htax, htyp, or_assoc]

/-- C10: a body whose data.items is the empty sequence but whose message
fields are present passes the structural envelope check (the per-item
condition is vacuous), and both handlers then read the absent first item of
data.items and throw — the run does not complete as a silent no-op. -/
theorem C10_empty_items_accepted_then_throws
    (body : RawBody) (d : WebhookData) (m : WebhookMessage)
    (hd : body.data = some d) (hi : d.items = some [])
    (hm : body.message = some m)
    (hapi : jsTruthy m.api_name = true) (hproj : jsTruthy m.project_id = true)
    (hop : m.operation ≠ JsValue.null) :
    parseKontentWebhookBody body = some body ∧
    (∀ (cfg : CustomPluginOptions) (loadKontentItem : Fetcher) (store : Store),
      handleUpsertItem body cfg loadKontentItem store =
        Except.error "TypeError: Cannot read properties of undefined (reading language)" ∧
      handleDeleteItem body cfg loadKontentItem store =
        Except.error "TypeError: Cannot read properties of undefined (reading language)") := by
  constructor
  · unfold parseKontentWebhookBody
    have hok : webhookBodyStructureOk body = true := by
      simp only [webhookBodyStructureOk, hd, hi, hm, Option.some_bind,
        List.all_nil, Bool.true_and, Bool.and_eq_true]
      exact ⟨⟨hapi, hproj⟩, bne_iff_ne.mpr hop⟩
    rw [if_pos hok]
  · intro cfg loadKontentItem store
    constructor
    · simp [handleUpsertItem, hd, hi]
    · simp [handleDeleteItem, hd, hi]

/-- Concrete body for the C10 witness. -/
def c10body : RawBody :=
  ⟨some ⟨some []⟩,
   some ⟨some "delivery_preview", some "p1", JsValue.value "upsert",
     some "content_item_variant"⟩⟩

/-- Witness for C10 at the concrete body with empty data.items. -/
theorem C10_witness :
    (c10body.data = some ⟨some []⟩ ∧
     c10body.message = some ⟨some "delivery_preview", some "p1",
       JsValue.value "upsert", some "content_item_variant"⟩ ∧
     jsTruthy (some "delivery_preview") = true ∧
     jsTruthy (some "p1") = true ∧
     (JsValue.value "upsert" : JsValue String) ≠ JsValue.null) ∧
    (parseKontentWebhookBody c10body = some c10body ∧
     (∀ (cfg : CustomPluginOptions) (loadKontentItem : Fetcher) (store : Store),
       handleUpsertItem c10body cfg loadKontentItem store =
         Except.error "TypeError: Cannot read properties of undefined (reading language)" ∧
       handleDeleteItem c10body cfg loadKontentItem store =
         Except.error "TypeError: Cannot read properties of undefined (reading language)")) :=
  ⟨⟨rfl, rfl, by decide, by decide, by decide⟩,
   C10_empty_items_accepted_then_throws c10body ⟨some []⟩
     ⟨some "delivery_preview", some "p1", JsValue.value "upsert",
       some "content_item_variant"⟩
     rfl rfl rfl (by decide) (by decide) (by decide)⟩
